import Mathlib

/-
Verification of the telemetry-processing core of dnyanesh57/webapp
(src/app.py): the pandas parsing pipeline in process_file and the Dash
callback update_table_and_plot.

Modelling conventions:
* Timestamps are integers (seconds since the epoch); pandas NaT is `none`.
* Float columns are rationals; pandas NaN is `none` in an `Option` column.
* Raised Python exceptions are `Except.error` values of the type `Err`.
* The network fetch (requests.get + raise_for_status) is an abstract
  capability `String → Except Err String`.
-/

deriving instance DecidableEq for Except

namespace SensorApp

/-- Error kinds the pipeline can surface.  `parseError` is the pandas
tokenizer error (a row wider than the first row), `numericCoercionError`
the ValueError of pd.to_numeric, `formatError` the ValueError of
pd.to_datetime, `emptyDataError` pandas EmptyDataError (no data to parse),
`indexError` Python's IndexError (positional lookup on an empty selection),
`retrievalError` a failed HTTP fetch.  `emptyDatasetError` is the
distinguished empty-dataset error posited by the specification; the code
itself never produces it. -/
inductive Err where
  | parseError
  | numericCoercionError
  | formatError
  | emptyDataError
  | indexError
  | retrievalError
  | emptyDatasetError
deriving DecidableEq, Repr

/-- Split a list of characters at every occurrence of `sep` (keeping empty
segments), the semantics of splitting a line on the single-space separator
of `pd.read_csv(..., sep=" ")`. -/
def splitOnChar (sep : Char) : List Char → List (List Char)
  | [] => [[]]
  | c :: cs =>
    let r := splitOnChar sep cs
    if c = sep then [] :: r
    else (c :: r.headD []) :: r.tail

/-- The fields of one raw line, split on single spaces (app.py line 17,
`sep=" "`). -/
def splitFields (line : String) : List String :=
  (splitOnChar ' ' line.data).map String.mk

/-- The non-blank lines of the input text (pandas `skip_blank_lines`
default). -/
def nonBlankLines (text : String) : List String :=
  ((splitOnChar '\n' text.data).map String.mk).filter (fun l => l ≠ "")

/-- Parse a non-empty all-digit character list as a natural number. -/
def parseNat? (cs : List Char) : Option Nat :=
  match cs with
  | [] => none
  | _ =>
    if cs.all Char.isDigit then
      some (cs.foldl (fun a c => a * 10 + (c.toNat - 48)) 0)
    else none

/-- Strip leading and trailing whitespace. -/
def trimChars (cs : List Char) : List Char :=
  ((cs.dropWhile Char.isWhitespace).reverse.dropWhile Char.isWhitespace).reverse

/-- Numeric coercion of one string field, the semantics of pd.to_numeric on
a scalar: optional sign, then a plain decimal literal (scientific notation
is not modelled; no claim involves it).  `none` means the ValueError branch. -/
def parseNumeric (s : String) : Option ℚ :=
  let t := trimChars s.data
  let sign : ℚ := if t.headD 'x' = '-' then -1 else 1
  let body := if t.headD 'x' = '-' ∨ t.headD 'x' = '+' then t.tail else t
  match splitOnChar '.' body with
  | [ipart] => (parseNat? ipart).map (fun n => sign * (n : ℚ))
  | [ipart, fpart] =>
    if ipart.isEmpty ∧ fpart.isEmpty then none
    else
      let iv := if ipart.isEmpty then some 0 else parseNat? ipart
      let fv := if fpart.isEmpty then some 0 else parseNat? fpart
      match iv, fv with
      | some i, some f =>
        some (sign * ((i : ℚ) + (f : ℚ) / ((10 : ℚ) ^ fpart.length)))
      | _, _ => none
  | _ => none

/-- Whether a year is a Gregorian leap year. -/
def isLeap (y : ℤ) : Bool :=
  (y % 4 = 0 ∧ y % 100 ≠ 0) ∨ y % 400 = 0

/-- Days in a month, for strptime-style calendar validation. -/
def daysInMonth (y : ℤ) (m : ℕ) : ℕ :=
  if m = 2 then (if isLeap y then 29 else 28)
  else if m = 4 ∨ m = 6 ∨ m = 9 ∨ m = 11 then 30
  else 31

/-- Days since 1970-01-01 of a civil date (standard civil-calendar
conversion; all inputs here are years ≥ 1969 so integer division rounding
conventions agree). -/
def daysFromCivil (y : ℤ) (m d : ℕ) : ℤ :=
  let yAdj : ℤ := if m ≤ 2 then y - 1 else y
  let era : ℤ := yAdj / 400
  let yoe : ℤ := yAdj - era * 400
  let mp : ℤ := ((m : ℤ) + 9) % 12
  let doy : ℤ := (153 * mp + 2) / 5 + (d : ℤ) - 1
  let doe : ℤ := yoe * 365 + yoe / 4 - yoe / 100 + doy
  era * 146097 + doe - 719468

/-- Parse a 1- or 2-digit field of the fixed datetime format. -/
def parse2 (cs : List Char) : Option Nat :=
  if cs.length = 1 ∨ cs.length = 2 then parseNat? cs else none

/-- Parse one combined date-time string with the fixed format
`%d-%m-%y %H:%M:%S` of app.py line 20, to seconds since the epoch.  The
two-digit year maps 00–68 to 2000–2068 and 69–99 to 1969–1999, pandas'
convention.  `none` means the ValueError branch of pd.to_datetime. -/
def to_datetime (s : String) : Option ℤ :=
  match splitOnChar ' ' s.data with
  | [datePart, timePart] =>
    match splitOnChar '-' datePart, splitOnChar ':' timePart with
    | [ds, ms, ys], [hs, mins, ss] =>
      match parse2 ds, parse2 ms, parse2 ys, parse2 hs, parse2 mins, parse2 ss with
      | some d, some mo, some yy, some h, some mi, some sec =>
        if mo = 0 ∨ 12 < mo then none
        else
          let y : ℤ := if yy ≤ 68 then 2000 + (yy : ℤ) else 1900 + (yy : ℤ)
          if d = 0 ∨ daysInMonth y mo < d then none
          else if 23 < h ∨ 59 < mi ∨ 59 < sec then none
          else some (daysFromCivil y mo d * 86400 + (h : ℤ) * 3600 + (mi : ℤ) * 60 + (sec : ℤ))
      | _, _, _, _, _, _ => none
    | _, _ => none
  | _ => none

/-- One tokenized row: the five named columns `ID Date Time Temp Humidity`
of app.py line 17.  A missing or empty cell is `none` (pandas NaN). -/
structure RawRow where
  id : Option String
  date : Option String
  time : Option String
  temp : Option String
  humidity : Option String
deriving DecidableEq, Repr

/-- An empty cell is NaN. -/
def fieldOpt (f : Option String) : Option String :=
  match f with
  | some "" => none
  | x => x

/-- The cell of a tokenized row at column index `i`, NaN when the row is
too short. -/
def cell (fs : List String) (i : ℕ) : Option String :=
  fieldOpt (fs.get? i)

/-- Align one tokenized line with the five column names.  `shift` is the
number of leading columns pandas turns into the index when the file is
wider than the five names. -/
def rowFrom (fs : List String) (shift : ℕ) : RawRow :=
  ⟨cell fs shift, cell fs (shift + 1), cell fs (shift + 2),
   cell fs (shift + 3), cell fs (shift + 4)⟩

/-- The tokenizer of `pd.read_csv(StringIO(text), sep=" ", header=None,
names=[ID, Date, Time, Temp, Humidity])` (app.py line 17).  Pandas
semantics: blank lines are skipped; with no data at all EmptyDataError is
raised; the first line fixes the expected field count, a later line with
MORE fields raises the tokenizer's ParserError, a line with FEWER fields is
padded with NaN; when the first line is wider than the five names the
leading extra columns become the index. -/
def read_csv (text : String) : Except Err (List RawRow) :=
  match nonBlankLines text with
  | [] => .error .emptyDataError
  | l0 :: rest =>
    let w := (splitFields l0).length
    if (l0 :: rest).any (fun l => w < (splitFields l).length) then
      .error .parseError
    else
      .ok ((l0 :: rest).map (fun l => rowFrom (splitFields l) (w - 5)))

/-- Map a fallible step over a list, failing at the first error: the
sequential semantics of a pandas whole-column operation and of the Python
loops in the callback. -/
def mapE {α β : Type} (f : α → Except Err β) : List α → Except Err (List β)
  | [] => .ok []
  | a :: l => do
    let b ← f a
    let r ← mapE f l
    .ok (b :: r)

/-- pd.to_numeric on one cell: NaN passes through, a non-numeric string is
the fatal ValueError (app.py lines 18–19). -/
def to_numeric_cell (f : Option String) : Except Err (Option ℚ) :=
  match f with
  | none => .ok none
  | some s =>
    match parseNumeric s with
    | some q => .ok (some q)
    | none => .error .numericCoercionError

/-- pd.to_numeric over a whole column. -/
def to_numeric_col (col : List (Option String)) : Except Err (List (Option ℚ)) :=
  mapE to_numeric_cell col

/-- The string concatenation `df[Date] + " " + df[Time]` of app.py
line 20: NaN in either operand yields NaN. -/
def concatDateTime (d t : Option String) : Option String :=
  match d, t with
  | some ds, some ts => some (ds ++ " " ++ ts)
  | _, _ => none

/-- pd.to_datetime on one cell: NaN becomes NaT, a malformed string is the
fatal ValueError (app.py line 20). -/
def to_datetime_cell (f : Option String) : Except Err (Option ℤ) :=
  match f with
  | none => .ok none
  | some s =>
    match to_datetime s with
    | some v => .ok (some v)
    | none => .error .formatError

/-- pd.to_datetime over a whole column. -/
def to_datetime_col (col : List (Option String)) : Except Err (List (Option ℤ)) :=
  mapE to_datetime_cell col

/-- Series.diff on the Datetime column (app.py line 21): first entry NaT,
then the difference of each entry with its predecessor, NaT-propagating. -/
def diffAux (prev : Option ℤ) : List (Option ℤ) → List (Option ℤ)
  | [] => []
  | x :: xs =>
    (match prev, x with
     | some p, some c => some (c - p)
     | _, _ => none) :: diffAux x xs

/-- `df[Datetime].diff().fillna(Timedelta(seconds=0)).dt.total_seconds()`
(app.py line 21): signed deltas in seconds, every NaT (in particular the
first entry) filled with zero. -/
def timeDiffCol (dts : List (Option ℤ)) : List ℚ :=
  (match dts with
   | [] => []
   | x :: xs => none :: diffAux x xs).map (fun (o : Option ℤ) => ((o.getD 0 : ℤ) : ℚ))

/-- Series.cumsum with a running accumulator. -/
def cumsumFrom (acc : ℚ) : List ℚ → List ℚ
  | [] => []
  | x :: xs => (acc + x) :: cumsumFrom (acc + x) xs

/-- `df[Time_Diff].cumsum()` (app.py line 22). -/
def cumsum (xs : List ℚ) : List ℚ :=
  cumsumFrom 0 xs

/-- Round a rational to the nearest integer, ties to even: the rounding of
numpy (hence of pandas Series.round) and of Python's round. -/
def roundHalfToEven (q : ℚ) : ℤ :=
  if q - ⌊q⌋ < 1 / 2 then ⌊q⌋
  else if 1 / 2 < q - ⌊q⌋ then ⌊q⌋ + 1
  else if ⌊q⌋ % 2 = 0 then ⌊q⌋ else ⌊q⌋ + 1

/-- Series.round(2): round to two decimal places, ties to even. -/
def round2 (q : ℚ) : ℚ :=
  ((roundHalfToEven (q * 100) : ℤ) : ℚ) / 100

/-- `(df[Cumulative_Time] / 3600).round(2)` (app.py line 23). -/
def cumHoursCol (cumTime : List ℚ) : List ℚ :=
  cumTime.map (fun x => round2 (x / 3600))

/-- The processed DataFrame of process_file: the parsed columns plus the
derived elapsed-time columns. -/
structure DataFrame where
  ids : List (Option String)
  datetimes : List (Option ℤ)
  temps : List (Option ℚ)
  humidities : List (Option ℚ)
  timeDiffs : List ℚ
  cumTime : List ℚ
  cumHours : List ℚ
deriving DecidableEq, Repr, Inhabited

/-- The pure tail of process_file (app.py lines 17–23): tokenize, coerce
the numeric columns, build the Datetime column, derive the elapsed-time
columns. -/
def processText (text : String) : Except Err DataFrame := do
  let raw ← read_csv text
  let temps ← to_numeric_col (raw.map (fun r => r.temp))
  let hums ← to_numeric_col (raw.map (fun r => r.humidity))
  let dts ← to_datetime_col (raw.map (fun r => concatDateTime r.date r.time))
  let diffs := timeDiffCol dts
  let cum := cumsum diffs
  .ok ⟨raw.map (fun r => r.id), dts, temps, hums, diffs, cum, cumHoursCol cum⟩

/-- process_file (app.py lines 13–25): fetch the raw text (requests.get +
raise_for_status, modelled by the `fetch` capability) and run the parsing
pipeline on it. -/
def process_file (fetch : String → Except Err String) (url : String) :
    Except Err DataFrame := do
  let text ← fetch url
  processText text

/-- One step of pandas' skipna maximum. -/
def maxStep (acc x : Option ℚ) : Option ℚ :=
  match acc, x with
  | none, v => v
  | some a, none => some a
  | some a, some b => some (max a b)

/-- One step of pandas' skipna minimum. -/
def minStep (acc x : Option ℚ) : Option ℚ :=
  match acc, x with
  | none, v => v
  | some a, none => some a
  | some a, some b => some (min a b)

/-- Series.max with pandas' skipna semantics: the maximum of the non-NaN
entries, NaN when there are none (app.py line 175). -/
def seriesMax (xs : List (Option ℚ)) : Option ℚ :=
  xs.foldl maxStep none

/-- Series.min with pandas' skipna semantics (app.py line 177). -/
def seriesMin (xs : List (Option ℚ)) : Option ℚ :=
  xs.foldl minStep none

/-- The elementwise comparison `df[Temp] == target`: NaN compares unequal
to everything, including NaN. -/
def eqSeries (x target : Option ℚ) : Bool :=
  match x, target with
  | some a, some b => a = b
  | _, _ => false

/-- `df.loc[df[Temp] == target, Datetime].iloc[0]` (app.py lines 176 and
178): the Datetime of the first row whose Temp equals `target`; positional
lookup on an empty selection is Python's IndexError. -/
def locFirstDatetime (temps : List (Option ℚ)) (dts : List (Option ℤ))
    (target : Option ℚ) : Except Err (Option ℤ) :=
  match (List.zip temps dts).filter (fun p => eqSeries p.1 target) with
  | [] => .error .indexError
  | p :: _ => .ok p.2

/-- The extrema reported for one series: the data carried by the two
f-strings of app.py lines 180–181 (value and timestamp of the maximum and
of the minimum). -/
structure SummaryInfo where
  max_temp : Option ℚ
  max_temp_time : Option ℤ
  min_temp : Option ℚ
  min_temp_time : Option ℤ
deriving DecidableEq, Repr

/-- The summary computation of app.py lines 175–178 on one DataFrame's
Temp and Datetime columns. -/
def summarize (temps : List (Option ℚ)) (dts : List (Option ℤ)) :
    Except Err SummaryInfo := do
  let maxT := seriesMax temps
  let maxTime ← locFirstDatetime temps dts maxT
  let minT := seriesMin temps
  let minTime ← locFirstDatetime temps dts minT
  .ok ⟨maxT, maxTime, minT, minTime⟩

/-- One row of the editable series table: the dict
`{meter_id, sensor_id, legend, color}` built at app.py lines 126–131. -/
structure TableRow where
  meter_id : String
  sensor_id : String
  legend : String
  color : Option String
deriving DecidableEq, Repr

/-- The sensor-data URL of app.py lines 139 and 171. -/
def file_url (meter_id sensor_id : String) : String :=
  "https://fileserv.c-probe.in/" ++ meter_id ++ "_" ++ sensor_id ++ ".txt"

/-- Fetch and process the series of one table row (app.py lines 137–143
and 169–173). -/
def processRow (fetch : String → Except Err String) (row : TableRow) :
    Except Err DataFrame :=
  process_file fetch (file_url row.meter_id row.sensor_id)

/-- One plotted trace (the go.Scatter of app.py lines 144–153): x is the
Cumulative_Hours column, y the Temp column, plus the row's legend and
color.  The constant mode and hovertemplate strings are presentation only
and are not modelled. -/
structure Trace where
  x : List ℚ
  y : List (Option ℚ)
  name : String
  color : Option String
deriving DecidableEq, Repr

/-- Build the trace of one processed series. -/
def mkTrace (row : TableRow) (df : DataFrame) : Trace :=
  ⟨df.cumHours, df.temps, row.legend, row.color⟩

/-- The plot-graph loop of app.py lines 135–153: process each configured
row in table order, appending one trace per row; the first raised
exception aborts the whole loop. -/
def plotTraces (fetch : String → Except Err String) :
    List TableRow → Except Err (List Trace)
  | [] => .ok []
  | r :: rs => do
    let df ← processRow fetch r
    let rest ← plotTraces fetch rs
    .ok (mkTrace r df :: rest)

/-- Fetch, process and summarize one configured series (app.py lines
169–181). -/
def seriesSummary (fetch : String → Except Err String) (row : TableRow) :
    Except Err SummaryInfo := do
  let df ← processRow fetch row
  summarize df.temps df.datetimes

/-- The show-summary loop of app.py lines 166–181: `acc` is the pair of
info strings (`none` models the initial Python None), overwritten by every
iteration. -/
def summaryLoop (fetch : String → Except Err String)
    (acc : Option SummaryInfo) :
    List TableRow → Except Err (Option SummaryInfo)
  | [] => .ok acc
  | r :: rs => do
    let s ← seriesSummary fetch r
    summaryLoop fetch (some s) rs

/-- Which button triggered the callback (`ctx.triggered[0].prop_id`,
app.py line 117). -/
inductive Trigger where
  | updateTable
  | plotGraph
  | showSummary
deriving DecidableEq, Repr

/-- The plot figure handed to the Graph output: the trace list plus the
effective title (app.py lines 155–162).  The callback's initial empty-dict
figure is modelled as `none` in `CallbackOut`. -/
structure Figure where
  data : List Trace
  title : String
deriving DecidableEq, Repr

/-- The three outputs of the callback (app.py line 189): the table data,
the figure (`none` for the initial empty dict) and the summary section
(`none` for the initial empty string; `some info` for the rendered Div,
whose two paragraphs hold the final info strings, themselves `none` when
no series was processed). -/
structure CallbackOut where
  data : List TableRow
  figure : Option Figure
  summary : Option (Option SummaryInfo)
deriving DecidableEq, Repr

/-- Python truthiness of an optional string State value: None and the
empty string are falsy. -/
def truthy (v : Option String) : Bool :=
  match v with
  | none => false
  | some s => !s.isEmpty

/-- The combined callback update_table_and_plot (app.py lines 111–189).
The branch dispatch on the trigger and the click counters mirrors the
if/elif chain of lines 124, 134 and 164; every branch starts from the
initialized outputs of lines 120–122 (existing table data, empty figure,
empty summary) and overwrites only its own output. -/
def update_table_and_plot (fetch : String → Except Err String)
    (trigger : Trigger) (update_clicks plot_clicks summary_clicks : ℕ)
    (meter_id sensor_id legend color : Option String)
    (existing_data : List TableRow) (title : Option String) :
    Except Err CallbackOut :=
  if trigger = .updateTable ∧ 0 < update_clicks then
    let updated_data :=
      if truthy meter_id ∧ truthy sensor_id ∧ truthy legend then
        existing_data ++
          [⟨meter_id.getD "", sensor_id.getD "", legend.getD "", color⟩]
      else existing_data
    .ok ⟨updated_data, none, none⟩
  else if trigger = .plotGraph ∧ 0 < plot_clicks then do
    let traces ← plotTraces fetch existing_data
    let plot_title := if truthy title then title.getD "" else "Temperature Profile"
    .ok ⟨existing_data, some ⟨traces, plot_title⟩, none⟩
  else if trigger = .showSummary ∧ 0 < summary_clicks then do
    let info ← summaryLoop fetch none existing_data
    .ok ⟨existing_data, none, some info⟩
  else
    .ok ⟨existing_data, none, none⟩

/-- Whether some line of the input splits into more fields than the first
line: exactly the condition under which the tokenizer raises its parse
error. -/
def hasOverWideLine (text : String) : Bool :=
  match nonBlankLines text with
  | [] => false
  | l0 :: rest =>
    (l0 :: rest).any (fun l => (splitFields l0).length < (splitFields l).length)

/-- Whether a cell fails numeric coercion (NaN passes). -/
def failsCoercion (f : Option String) : Bool :=
  match f with
  | none => false
  | some s => (parseNumeric s).isNone

/-- Whether the input tokenizes successfully and then contains some row
whose temperature or humidity field fails numeric coercion. -/
def hasBadNumericField (text : String) : Bool :=
  match read_csv text with
  | .ok raw => raw.any (fun r => failsCoercion r.temp || failsCoercion r.humidity)
  | .error _ => false

/-- Extract the DataFrame of a successful run (arbitrary on errors). -/
def okDf (x : Except Err DataFrame) : DataFrame :=
  match x with
  | .ok d => d
  | .error _ => default

/-- A fetch capability that always fails, for branches that never fetch. -/
def stubFetch : String → Except Err String := fun _ => .error .retrievalError

/-- A concrete one-record telemetry log. -/
def textA : String := "S1 01-01-24 00:00:00 20.0 50.0"

/-- A second concrete one-record telemetry log with different values. -/
def textB : String := "S2 01-01-24 02:00:00 30.5 40.0"

/-- A fetch capability serving textB for the series M2/S2 and textA for
every other URL. -/
def fetchAB : String → Except Err String :=
  fun u => if u = file_url "M2" "S2" then .ok textB else .ok textA

/-- A concrete configured series row. -/
def rowM1 : TableRow := ⟨"M1", "S1", "first", some "#0000ff"⟩

/-- A second concrete configured series row. -/
def rowM2 : TableRow := ⟨"M2", "S2", "second", some "#ff0000"⟩

/-- A concrete non-empty previously rendered figure. -/
def prevFigureC9 : Figure :=
  ⟨[⟨[0, 1], [some 20, some 21], "prev", some "#00ff00"⟩], "Temperature Profile"⟩

/-- A concrete input whose only line has four fields instead of five. -/
def shortLineText : String := "S1 01-01-24 00:00:00 20.0"

/-- A concrete input whose temperature field is not numeric. -/
def badNumericText : String := "S1 01-01-24 00:00:00 NaNvalue 55.2"

/-!  Basic lemmas about the embedding. -/

theorem bindE_ok {α β : Type} (a : α) (f : α → Except Err β) :
    (Except.ok a >>= f : Except Err β) = f a := rfl

theorem bindE_err {α β : Type} (e : Err) (f : α → Except Err β) :
    (Except.error e >>= f : Except Err β) = Except.error e := rfl

theorem isOk_ok {α : Type} (a : α) : (Except.ok a : Except Err α).isOk = true := rfl

theorem isOk_err {α : Type} (e : Err) : (Except.error e : Except Err α).isOk = false := rfl

theorem mapE_isOk_iff {α β : Type} (f : α → Except Err β) (l : List α) :
    (mapE f l).isOk = true ↔ ∀ a ∈ l, (f a).isOk = true := by
  induction l with
  | nil => simp [mapE, isOk_ok]
  | cons a l ih =>
    cases ha : f a with
    | error e =>
      simp only [mapE, ha, bindE_err]
      simp [isOk_err, List.forall_mem_cons, ha]
    | ok b =>
      simp only [mapE, ha, bindE_ok]
      cases hl : mapE f l with
      | error e =>
        rw [hl] at ih
        simp only [hl, bindE_err]
        simp [isOk_err, isOk_ok, List.forall_mem_cons, ha, ← ih]
      | ok r =>
        rw [hl] at ih
        simp only [hl, bindE_ok]
        simp [isOk_ok, List.forall_mem_cons, ha, ← ih]

theorem mapE_error_kind {α β : Type} (f : α → Except Err β) (P : Err → Prop)
    (hf : ∀ a e, f a = .error e → P e) :
    ∀ (l : List α) (e : Err), mapE f l = .error e → P e := by
  intro l
  induction l with
  | nil => intro e h; simp [mapE] at h
  | cons a l ih =>
    intro e h
    cases ha : f a with
    | error e0 =>
      rw [mapE, ha, bindE_err] at h
      cases h
      exact hf a _ ha
    | ok b =>
      rw [mapE, ha, bindE_ok] at h
      cases hl : mapE f l with
      | error e1 =>
        rw [hl, bindE_err] at h
        cases h
        exact ih e hl
      | ok r => rw [hl, bindE_ok] at h; cases h

theorem to_numeric_cell_kind (f : Option String) (e : Err)
    (h : to_numeric_cell f = .error e) : e = .numericCoercionError := by
  cases f with
  | none => simp [to_numeric_cell] at h
  | some s =>
    cases hp : parseNumeric s with
    | none => rw [to_numeric_cell, hp] at h; cases h; rfl
    | some q => rw [to_numeric_cell, hp] at h; cases h

theorem to_datetime_cell_kind (f : Option String) (e : Err)
    (h : to_datetime_cell f = .error e) : e = .formatError := by
  cases f with
  | none => simp [to_datetime_cell] at h
  | some s =>
    cases hp : to_datetime s with
    | none => rw [to_datetime_cell, hp] at h; cases h; rfl
    | some q => rw [to_datetime_cell, hp] at h; cases h

theorem diffAux_length (prev : Option ℤ) (l : List (Option ℤ)) :
    (diffAux prev l).length = l.length := by
  induction l generalizing prev with
  | nil => rfl
  | cons x xs ih => simp [diffAux, ih]

theorem timeDiffCol_length (dts : List (Option ℤ)) :
    (timeDiffCol dts).length = dts.length := by
  cases dts with
  | nil => rfl
  | cons x xs => simp [timeDiffCol, diffAux_length]

theorem cumsumFrom_length (acc : ℚ) (xs : List ℚ) :
    (cumsumFrom acc xs).length = xs.length := by
  induction xs generalizing acc with
  | nil => rfl
  | cons x xs ih => simp [cumsumFrom, ih]

theorem cumsum_length (xs : List ℚ) : (cumsum xs).length = xs.length :=
  cumsumFrom_length 0 xs

theorem cumHoursCol_length (xs : List ℚ) : (cumHoursCol xs).length = xs.length := by
  simp [cumHoursCol]

theorem getD_map_q {α β : Type} (f : α → β) (l : List α) (i : ℕ) (d : α)
    (h : i < l.length) : (l.map f).getD i (f d) = f (l.getD i d) := by
  induction l generalizing i with
  | nil => simp at h
  | cons a t ih =>
    cases i with
    | zero => rfl
    | succ k =>
      simp only [List.map_cons, List.getD_cons_succ]
      exact ih k (by simpa using Nat.lt_of_succ_lt_succ h)

theorem getD_map_d {α β : Type} (f : α → β) (l : List α) (i : ℕ) (d : α)
    (d2 : β) (hd : f d = d2) (h : i < l.length) :
    (l.map f).getD i d2 = f (l.getD i d) := by
  rw [← hd]
  exact getD_map_q f l i d h

theorem cumsumFrom_getD (xs : List ℚ) :
    ∀ (acc : ℚ) (i : ℕ), i < xs.length →
      (cumsumFrom acc xs).getD i 0 = acc + (xs.take (i + 1)).sum := by
  induction xs with
  | nil => intro acc i h; simp at h
  | cons x t ih =>
    intro acc i h
    cases i with
    | zero => simp [cumsumFrom]
    | succ k =>
      simp only [cumsumFrom, List.getD_cons_succ, List.take_succ_cons, List.sum_cons]
      rw [ih (acc + x) k (by simpa using Nat.lt_of_succ_lt_succ h)]
      ring

theorem cumsum_getD_sum (xs : List ℚ) (i : ℕ) (h : i < xs.length) :
    (cumsum xs).getD i 0 = (xs.take (i + 1)).sum := by
  rw [cumsum, cumsumFrom_getD xs 0 i h, zero_add]

theorem diffAux_map_some_getD (l : List ℤ) :
    ∀ (p : ℤ) (i : ℕ), i < l.length →
      (diffAux (some p) (l.map some)).getD i none
        = some (l.getD i 0 - (p :: l).getD i 0) := by
  induction l with
  | nil => intro p i h; simp at h
  | cons x t ih =>
    intro p i h
    cases i with
    | zero => simp [diffAux]
    | succ k =>
      simp only [List.map_cons, diffAux, List.getD_cons_succ]
      exact ih x k (by simpa using Nat.lt_of_succ_lt_succ h)

theorem timeDiffCol_getD_zero (dts : List ℤ) (h : 0 < dts.length) :
    (timeDiffCol (dts.map some)).getD 0 0 = 0 := by
  cases dts with
  | nil => simp at h
  | cons x t => simp [timeDiffCol]

theorem timeDiffCol_getD_succ (dts : List ℤ) (i : ℕ) (h : i + 1 < dts.length) :
    (timeDiffCol (dts.map some)).getD (i + 1) 0
      = ((dts.getD (i + 1) 0 : ℤ) : ℚ) - ((dts.getD i 0 : ℤ) : ℚ) := by
  cases dts with
  | nil => simp at h
  | cons x t =>
    have ht : i < t.length := by simpa using Nat.lt_of_succ_lt_succ h
    have : (timeDiffCol ((x :: t).map some)).getD (i + 1) 0
        = ((none :: diffAux (some x) (t.map some)).map
            (fun (o : Option ℤ) => ((o.getD 0 : ℤ) : ℚ))).getD (i + 1) 0 := by
      simp [timeDiffCol]
    rw [this]
    simp only [List.map_cons, List.getD_cons_succ]
    have hlen : i < (diffAux (some x) (t.map some)).length := by
      rw [diffAux_length]; simpa using ht
    have hmap := getD_map_d (fun (o : Option ℤ) => ((o.getD 0 : ℤ) : ℚ))
      (diffAux (some x) (t.map some)) i none 0 (by norm_num) hlen
    rw [hmap, diffAux_map_some_getD t x i ht]
    cases i with
    | zero => simp
    | succ k =>
      simp only [List.getD_cons_succ, Option.getD_some]
      push_cast
      ring

theorem sum_take_succ_getD (xs : List ℚ) (i : ℕ) (h : i < xs.length) :
    (xs.take (i + 1)).sum = (xs.take i).sum + xs.getD i 0 := by
  induction xs generalizing i with
  | nil => simp at h
  | cons x t ih =>
    cases i with
    | zero => simp
    | succ k =>
      simp only [List.take_succ_cons, List.sum_cons, List.getD_cons_succ]
      rw [ih k (by simpa using Nat.lt_of_succ_lt_succ h)]
      ring

theorem round2_zero_div : round2 ((0 : ℚ) / 3600) = 0 := by
  norm_num [round2, roundHalfToEven]

theorem cumHoursCol_getD (xs : List ℚ) (i : ℕ) (h : i < xs.length) :
    (cumHoursCol xs).getD i 0 = round2 (xs.getD i 0 / 3600) :=
  getD_map_d (fun x => round2 (x / 3600)) xs i 0 0 round2_zero_div h

theorem roundHalfToEven_mono {q r : ℚ} (h : q ≤ r) :
    roundHalfToEven q ≤ roundHalfToEven r := by
  have hf : ⌊q⌋ ≤ ⌊r⌋ := Int.floor_le_floor h
  by_cases heq : ⌊q⌋ = ⌊r⌋
  · have hqr : q - (⌊r⌋ : ℚ) ≤ r - (⌊r⌋ : ℚ) := by linarith
    unfold roundHalfToEven
    rw [heq]
    split_ifs <;> first | omega | linarith
  · have h1 : ⌊q⌋ + 1 ≤ ⌊r⌋ := by omega
    have hA : roundHalfToEven q ≤ ⌊q⌋ + 1 := by
      unfold roundHalfToEven; split_ifs <;> omega
    have hB : ⌊r⌋ ≤ roundHalfToEven r := by
      unfold roundHalfToEven; split_ifs <;> omega
    omega

theorem round2_mono {q r : ℚ} (h : q ≤ r) : round2 q ≤ round2 r := by
  unfold round2
  have h100 : q * 100 ≤ r * 100 := by linarith
  have hI : ((roundHalfToEven (q * 100) : ℤ) : ℚ)
      ≤ ((roundHalfToEven (r * 100) : ℤ) : ℚ) := by
    exact_mod_cast roundHalfToEven_mono h100
  gcongr

/-- C1: for every parsed record sequence, the elapsed-time accumulator
(app.py lines 21–23) sets elapsed_seconds[0] = 0 and, for every i ≥ 1,
elapsed_seconds[i] = datetime[i] - datetime[i-1] in seconds (a signed
subtraction, with no clamping of negative deltas), cumulative_seconds[i]
is the running sum of elapsed_seconds[0..i], and cumulative_hours[i] is
round(cumulative_seconds[i] / 3600, 2). -/
theorem C1_elapsed_time_accumulator (dts : List ℤ) :
    (0 < dts.length → (timeDiffCol (dts.map some)).getD 0 0 = 0)
    ∧ (∀ i : ℕ, i + 1 < dts.length →
        (timeDiffCol (dts.map some)).getD (i + 1) 0
          = ((dts.getD (i + 1) 0 : ℤ) : ℚ) - ((dts.getD i 0 : ℤ) : ℚ))
    ∧ (∀ i : ℕ, i < dts.length →
        (cumsum (timeDiffCol (dts.map some))).getD i 0
          = ((timeDiffCol (dts.map some)).take (i + 1)).sum)
    ∧ (∀ i : ℕ, i < dts.length →
        (cumHoursCol (cumsum (timeDiffCol (dts.map some)))).getD i 0
          = round2 ((cumsum (timeDiffCol (dts.map some))).getD i 0 / 3600)) := by
  refine ⟨timeDiffCol_getD_zero dts, timeDiffCol_getD_succ dts, ?_, ?_⟩
  · intro i h
    exact cumsum_getD_sum _ i (by rw [timeDiffCol_length, List.length_map]; exact h)
  · intro i h
    exact cumHoursCol_getD _ i
      (by rw [cumsum_length, timeDiffCol_length, List.length_map]; exact h)

/-- C3: for every record sequence with strictly increasing timestamps, the
derived Cumulative_Hours column (app.py lines 21–23) is non-decreasing. -/
theorem C3_cumulative_hours_monotone (dts : List ℤ)
    (hmono : ∀ i : ℕ, i + 1 < dts.length → dts.getD i 0 < dts.getD (i + 1) 0) :
    ∀ i j : ℕ, i ≤ j → j < dts.length →
      (cumHoursCol (cumsum (timeDiffCol (dts.map some)))).getD i 0
        ≤ (cumHoursCol (cumsum (timeDiffCol (dts.map some)))).getD j 0 := by
  have hlenL : (timeDiffCol (dts.map some)).length = dts.length := by
    rw [timeDiffCol_length, List.length_map]
  have adj : ∀ i : ℕ, i + 1 < dts.length →
      (cumsum (timeDiffCol (dts.map some))).getD i 0
        ≤ (cumsum (timeDiffCol (dts.map some))).getD (i + 1) 0 := by
    intro i h
    rw [cumsum_getD_sum _ (i + 1) (by rw [hlenL]; exact h),
      cumsum_getD_sum _ i (by rw [hlenL]; omega),
      sum_take_succ_getD _ (i + 1) (by rw [hlenL]; exact h)]
    have hd : (0 : ℚ) ≤ (timeDiffCol (dts.map some)).getD (i + 1) 0 := by
      rw [timeDiffCol_getD_succ dts i h]
      have := hmono i h
      have : ((dts.getD i 0 : ℤ) : ℚ) ≤ ((dts.getD (i + 1) 0 : ℤ) : ℚ) := by
        exact_mod_cast le_of_lt this
      linarith
    have heq : ((timeDiffCol (dts.map some)).take (i + 1)).sum
        = ((timeDiffCol (dts.map some)).take i).sum
          + (timeDiffCol (dts.map some)).getD i 0 := by
      exact sum_take_succ_getD _ i (by rw [hlenL]; omega)
    linarith
  have steps : ∀ (i d : ℕ), i + d < dts.length →
      (cumsum (timeDiffCol (dts.map some))).getD i 0
        ≤ (cumsum (timeDiffCol (dts.map some))).getD (i + d) 0 := by
    intro i d
    induction d with
    | zero => intro _; simp
    | succ k ih =>
      intro h
      have h1 : i + k < dts.length := by omega
      calc (cumsum (timeDiffCol (dts.map some))).getD i 0
          ≤ (cumsum (timeDiffCol (dts.map some))).getD (i + k) 0 := ih h1
        _ ≤ (cumsum (timeDiffCol (dts.map some))).getD (i + k + 1) 0 :=
            adj (i + k) (by omega)
        _ = (cumsum (timeDiffCol (dts.map some))).getD (i + (k + 1)) 0 := by
            rw [Nat.add_assoc]
  intro i j hij hj
  obtain ⟨d, rfl⟩ : ∃ d, j = i + d := ⟨j - i, by omega⟩
  have hcum := steps i d hj
  rw [cumHoursCol_getD _ i (by rw [cumsum_length, hlenL]; omega),
    cumHoursCol_getD _ (i + d) (by rw [cumsum_length, hlenL]; exact hj)]
  exact round2_mono (by gcongr)

theorem foldl_max_le_self (l : List ℚ) : ∀ a : ℚ, a ≤ l.foldl max a := by
  induction l with
  | nil => intro a; exact le_refl a
  | cons x t ih =>
    intro a
    exact le_trans (le_max_left a x) (ih (max a x))

theorem foldl_max_of_mem (l : List ℚ) :
    ∀ (a b : ℚ), b ∈ l → b ≤ l.foldl max a := by
  induction l with
  | nil => intro a b hb; simp at hb
  | cons x t ih =>
    intro a b hb
    rcases List.mem_cons.1 hb with rfl | hb
    · exact le_trans (le_max_right a b) (foldl_max_le_self t (max a b))
    · exact ih (max a x) b hb

theorem foldl_max_mem (l : List ℚ) : ∀ a : ℚ, l.foldl max a ∈ a :: l := by
  induction l with
  | nil => intro a; simp [List.foldl_nil]
  | cons x t ih =>
    intro a
    have h := ih (max a x)
    rcases List.mem_cons.1 h with heq | hmem
    · rcases max_choice a x with hc | hc
      · exact List.mem_cons.2 (Or.inl (by rw [List.foldl_cons, heq, hc]))
      · refine List.mem_cons.2 (Or.inr ?_)
        exact List.mem_cons.2 (Or.inl (by rw [List.foldl_cons, heq, hc]))
    · exact List.mem_cons.2 (Or.inr (List.mem_cons.2 (Or.inr hmem)))

theorem foldl_min_le_self (l : List ℚ) : ∀ a : ℚ, l.foldl min a ≤ a := by
  induction l with
  | nil => intro a; exact le_refl a
  | cons x t ih =>
    intro a
    exact le_trans (ih (min a x)) (min_le_left a x)

theorem foldl_min_of_mem (l : List ℚ) :
    ∀ (a b : ℚ), b ∈ l → l.foldl min a ≤ b := by
  induction l with
  | nil => intro a b hb; simp at hb
  | cons x t ih =>
    intro a b hb
    rcases List.mem_cons.1 hb with rfl | hb
    · exact le_trans (foldl_min_le_self t (min a b)) (min_le_right a b)
    · exact ih (min a x) b hb

theorem foldl_min_mem (l : List ℚ) : ∀ a : ℚ, l.foldl min a ∈ a :: l := by
  induction l with
  | nil => intro a; simp [List.foldl_nil]
  | cons x t ih =>
    intro a
    have h := ih (min a x)
    rcases List.mem_cons.1 h with heq | hmem
    · rcases min_choice a x with hc | hc
      · exact List.mem_cons.2 (Or.inl (by rw [List.foldl_cons, heq, hc]))
      · refine List.mem_cons.2 (Or.inr ?_)
        exact List.mem_cons.2 (Or.inl (by rw [List.foldl_cons, heq, hc]))
    · exact List.mem_cons.2 (Or.inr (List.mem_cons.2 (Or.inr hmem)))

theorem foldl_maxStep_some (l : List ℚ) :
    ∀ a : ℚ, List.foldl maxStep (some a) (l.map some) = some (l.foldl max a) := by
  induction l with
  | nil => intro a; rfl
  | cons x t ih => intro a; simp only [List.map_cons, List.foldl_cons]; exact ih (max a x)

theorem foldl_minStep_some (l : List ℚ) :
    ∀ a : ℚ, List.foldl minStep (some a) (l.map some) = some (l.foldl min a) := by
  induction l with
  | nil => intro a; rfl
  | cons x t ih => intro a; simp only [List.map_cons, List.foldl_cons]; exact ih (min a x)

theorem seriesMax_spec (rs : List (ℤ × ℚ)) (hne : rs ≠ []) :
    ∃ M : ℚ, seriesMax (rs.map (fun r => some r.2)) = some M
      ∧ (∀ r ∈ rs, r.2 ≤ M) ∧ (∃ r ∈ rs, r.2 = M) := by
  obtain ⟨p, rest, rfl⟩ : ∃ p rest, rs = p :: rest := by
    cases rs with
    | nil => exact absurd rfl hne
    | cons p rest => exact ⟨p, rest, rfl⟩
  refine ⟨(rest.map (fun r => r.2)).foldl max p.2, ?_, ?_, ?_⟩
  · have hcol : (p :: rest).map (fun r => some r.2)
        = (p.2 :: rest.map (fun r => r.2)).map some := by
      simp [List.map_map]
    rw [hcol, seriesMax]
    simp only [List.map_cons, List.foldl_cons]
    exact foldl_maxStep_some (rest.map (fun r => r.2)) p.2
  · intro r hr
    rcases List.mem_cons.1 hr with rfl | hr
    · exact foldl_max_le_self _ _
    · exact foldl_max_of_mem _ _ _ (List.mem_map_of_mem (fun r => r.2) hr)
  · have hmem := foldl_max_mem (rest.map (fun r => r.2)) p.2
    rcases List.mem_cons.1 hmem with heq | hmem
    · exact ⟨p, List.mem_cons_self p rest, heq.symm⟩
    · obtain ⟨r, hr, hrv⟩ := List.mem_map.1 hmem
      exact ⟨r, List.mem_cons.2 (Or.inr hr), hrv⟩

theorem seriesMin_spec (rs : List (ℤ × ℚ)) (hne : rs ≠ []) :
    ∃ m : ℚ, seriesMin (rs.map (fun r => some r.2)) = some m
      ∧ (∀ r ∈ rs, m ≤ r.2) ∧ (∃ r ∈ rs, r.2 = m) := by
  obtain ⟨p, rest, rfl⟩ : ∃ p rest, rs = p :: rest := by
    cases rs with
    | nil => exact absurd rfl hne
    | cons p rest => exact ⟨p, rest, rfl⟩
  refine ⟨(rest.map (fun r => r.2)).foldl min p.2, ?_, ?_, ?_⟩
  · have hcol : (p :: rest).map (fun r => some r.2)
        = (p.2 :: rest.map (fun r => r.2)).map some := by
      simp [List.map_map]
    rw [hcol, seriesMin]
    simp only [List.map_cons, List.foldl_cons]
    exact foldl_minStep_some (rest.map (fun r => r.2)) p.2
  · intro r hr
    rcases List.mem_cons.1 hr with rfl | hr
    · exact foldl_min_le_self _ _
    · exact foldl_min_of_mem _ _ _ (List.mem_map_of_mem (fun r => r.2) hr)
  · have hmem := foldl_min_mem (rest.map (fun r => r.2)) p.2
    rcases List.mem_cons.1 hmem with heq | hmem
    · exact ⟨p, List.mem_cons_self p rest, heq.symm⟩
    · obtain ⟨r, hr, hrv⟩ := List.mem_map.1 hmem
      exact ⟨r, List.mem_cons.2 (Or.inr hr), hrv⟩

theorem filter_head_first {α : Type} (P : α → Bool) (d : α) :
    ∀ (l : List α) (x : α) (r : List α), l.filter P = x :: r →
      ∃ j, j < l.length ∧ l.getD j d = x ∧ P x = true
        ∧ ∀ k, k < j → P (l.getD k d) = false := by
  intro l
  induction l with
  | nil => intro x r h; simp at h
  | cons a t ih =>
    intro x r h
    rw [List.filter_cons] at h
    by_cases hPa : P a = true
    · rw [if_pos hPa] at h
      injection h with h1 h2
      subst h1
      exact ⟨0, Nat.succ_pos _, rfl, hPa, fun k hk => absurd hk (Nat.not_lt_zero k)⟩
    · rw [if_neg hPa] at h
      obtain ⟨j, hj, hx, hPx, hmin⟩ := ih x r h
      refine ⟨j + 1, Nat.succ_lt_succ hj, by simpa using hx, hPx, ?_⟩
      intro k hk
      cases k with
      | zero => simpa using Bool.eq_false_iff.2 hPa
      | succ k2 =>
        simp only [List.getD_cons_succ]
        exact hmin k2 (Nat.lt_of_succ_lt_succ hk)

theorem eqSeries_some_iff (a b : ℚ) : eqSeries (some a) (some b) = true ↔ a = b := by
  simp [eqSeries]

theorem locFirst_spec (rs : List (ℤ × ℚ)) (M : ℚ)
    (hAtt : ∃ r ∈ rs, r.2 = M) :
    ∃ j, j < rs.length ∧ (rs.getD j ((0 : ℤ), (0 : ℚ))).2 = M
      ∧ locFirstDatetime (rs.map (fun r => some r.2)) (rs.map (fun r => some r.1))
          (some M) = .ok (some (rs.getD j ((0 : ℤ), (0 : ℚ))).1)
      ∧ ∀ k, k < j → (rs.getD k ((0 : ℤ), (0 : ℚ))).2 ≠ M := by
  have hzip : (rs.map (fun r => some r.2)).zip (rs.map (fun r => some r.1))
      = rs.map (fun r => ((some r.2 : Option ℚ), (some r.1 : Option ℤ))) :=
    List.zip_map' _ _ rs
  set f : ℤ × ℚ → Option ℚ × Option ℤ := fun r => (some r.2, some r.1) with hf
  set P : Option ℚ × Option ℤ → Bool := fun p => eqSeries p.1 (some M) with hP
  have hne2 : (rs.map f).filter P ≠ [] := by
    obtain ⟨r, hr, hrM⟩ := hAtt
    intro hnil
    have := (List.filter_eq_nil_iff.1 hnil) (f r) (List.mem_map_of_mem f hr)
    rw [hP] at this
    simp only [hf] at this
    exact this ((eqSeries_some_iff r.2 M).2 hrM)
  cases hfil : (rs.map f).filter P with
  | nil => exact absurd hfil hne2
  | cons x rest =>
    obtain ⟨j, hj, hx, hPx, hmin⟩ :=
      filter_head_first P (f ((0 : ℤ), (0 : ℚ))) (rs.map f) x rest hfil
    rw [List.length_map] at hj
    rw [getD_map_q f rs j ((0 : ℤ), (0 : ℚ)) hj] at hx
    refine ⟨j, hj, ?_, ?_, ?_⟩
    · have : P (f (rs.getD j ((0 : ℤ), (0 : ℚ)))) = true := by rw [hx]; exact hPx
      simpa [hP, hf, eqSeries] using this
    · rw [locFirstDatetime, hzip]
      have : (rs.map f).filter P = x :: rest := hfil
      rw [hf] at this
      rw [this]
      rw [← hx, hf]
    · intro k hk
      have hklen : k < rs.length := lt_trans hk hj
      have := hmin k hk
      rw [getD_map_q f rs k ((0 : ℤ), (0 : ℚ)) hklen] at this
      intro hkM
      rw [hP] at this
      simp only [hf] at this
      rw [(eqSeries_some_iff _ M).2 hkM] at this
      cases this

/-- C2: for every non-empty dataset of valid records (each with a datetime
and a numeric temperature), the summary computation of app.py lines
175–178 returns the maximum temperature together with the datetime of the
first record attaining it, and symmetrically the minimum temperature with
the datetime of the first record attaining it. -/
theorem C2_summary_extrema (rs : List (ℤ × ℚ)) (hne : rs ≠ []) :
    ∃ M tM m tm,
      summarize (rs.map (fun r => some r.2)) (rs.map (fun r => some r.1))
        = .ok ⟨some M, some tM, some m, some tm⟩
      ∧ (∀ r ∈ rs, r.2 ≤ M)
      ∧ (∃ j, j < rs.length ∧ (rs.getD j ((0 : ℤ), (0 : ℚ))).2 = M
          ∧ tM = (rs.getD j ((0 : ℤ), (0 : ℚ))).1
          ∧ ∀ k, k < j → (rs.getD k ((0 : ℤ), (0 : ℚ))).2 ≠ M)
      ∧ (∀ r ∈ rs, m ≤ r.2)
      ∧ (∃ j, j < rs.length ∧ (rs.getD j ((0 : ℤ), (0 : ℚ))).2 = m
          ∧ tm = (rs.getD j ((0 : ℤ), (0 : ℚ))).1
          ∧ ∀ k, k < j → (rs.getD k ((0 : ℤ), (0 : ℚ))).2 ≠ m) := by
  obtain ⟨M, hM, hMub, hMatt⟩ := seriesMax_spec rs hne
  obtain ⟨m, hm, hmlb, hmatt⟩ := seriesMin_spec rs hne
  obtain ⟨jM, hjM, hjMv, hjMloc, hjMmin⟩ := locFirst_spec rs M hMatt
  obtain ⟨jm, hjm, hjmv, hjmloc, hjmmin⟩ := locFirst_spec rs m hmatt
  refine ⟨M, (rs.getD jM ((0 : ℤ), (0 : ℚ))).1, m, (rs.getD jm ((0 : ℤ), (0 : ℚ))).1,
    ?_, hMub, ⟨jM, hjM, hjMv, rfl, hjMmin⟩, hmlb, ⟨jm, hjm, hjmv, rfl, hjmmin⟩⟩
  rw [summarize, hM, hm]
  simp only [hjMloc, hjmloc, bindE_ok]

/-- C2 witness: a concrete three-record dataset with a tied maximum; the
summary picks the earliest record attaining each extremum. -/
theorem C2_summary_extrema_witness :
    ∃ M tM m tm,
      summarize ([((0 : ℤ), (20 : ℚ)), (3600, 25), (7200, 25)].map (fun r => some r.2))
          ([((0 : ℤ), (20 : ℚ)), (3600, 25), (7200, 25)].map (fun r => some r.1))
        = .ok ⟨some M, some tM, some m, some tm⟩
      ∧ (∀ r ∈ [((0 : ℤ), (20 : ℚ)), (3600, 25), (7200, 25)], r.2 ≤ M)
      ∧ (∃ j, j < [((0 : ℤ), (20 : ℚ)), (3600, 25), (7200, 25)].length
          ∧ ([((0 : ℤ), (20 : ℚ)), (3600, 25), (7200, 25)].getD j ((0 : ℤ), (0 : ℚ))).2 = M
          ∧ tM = ([((0 : ℤ), (20 : ℚ)), (3600, 25), (7200, 25)].getD j ((0 : ℤ), (0 : ℚ))).1
          ∧ ∀ k, k < j →
              ([((0 : ℤ), (20 : ℚ)), (3600, 25), (7200, 25)].getD k ((0 : ℤ), (0 : ℚ))).2 ≠ M)
      ∧ (∀ r ∈ [((0 : ℤ), (20 : ℚ)), (3600, 25), (7200, 25)], m ≤ r.2)
      ∧ (∃ j, j < [((0 : ℤ), (20 : ℚ)), (3600, 25), (7200, 25)].length
          ∧ ([((0 : ℤ), (20 : ℚ)), (3600, 25), (7200, 25)].getD j ((0 : ℤ), (0 : ℚ))).2 = m
          ∧ tm = ([((0 : ℤ), (20 : ℚ)), (3600, 25), (7200, 25)].getD j ((0 : ℤ), (0 : ℚ))).1
          ∧ ∀ k, k < j →
              ([((0 : ℤ), (20 : ℚ)), (3600, 25), (7200, 25)].getD k ((0 : ℤ), (0 : ℚ))).2 ≠ m) :=
  C2_summary_extrema [((0 : ℤ), (20 : ℚ)), (3600, 25), (7200, 25)] (by decide)

/-- C3 witness: the cumulative-hours column of a concrete strictly
increasing timestamp sequence is non-decreasing between its first and last
entries. -/
theorem C3_cumulative_hours_monotone_witness :
    (cumHoursCol (cumsum (timeDiffCol (([0, 3600, 10800] : List ℤ).map some)))).getD 0 0
      ≤ (cumHoursCol (cumsum (timeDiffCol (([0, 3600, 10800] : List ℤ).map some)))).getD 2 0 :=
  C3_cumulative_hours_monotone [0, 3600, 10800]
    (by
      intro i hi
      have h2 : i = 0 ∨ i = 1 := by
        simp only [List.length_cons, List.length_nil] at hi
        omega
      rcases h2 with rfl | rfl <;> decide)
    0 2 (by omega) (by decide)

theorem failsCoercion_not_ok (f : Option String) (h : failsCoercion f = true) :
    (to_numeric_cell f).isOk = false := by
  cases f with
  | none => simp [failsCoercion] at h
  | some s =>
    cases hp : parseNumeric s with
    | none => rw [to_numeric_cell, hp]; rfl
    | some q => rw [failsCoercion, hp] at h; simp [Option.isNone] at h

theorem to_numeric_col_kind (col : List (Option String)) (e : Err)
    (h : to_numeric_col col = .error e) : e = .numericCoercionError :=
  mapE_error_kind to_numeric_cell (fun e0 => e0 = .numericCoercionError)
    to_numeric_cell_kind col e h

theorem to_datetime_col_kind (col : List (Option String)) (e : Err)
    (h : to_datetime_col col = .error e) : e = .formatError :=
  mapE_error_kind to_datetime_cell (fun e0 => e0 = .formatError)
    to_datetime_cell_kind col e h

theorem processText_no_parse_error_after_tokenize (text : String)
    (raw : List RawRow) (hr : read_csv text = .ok raw) :
    processText text ≠ .error .parseError := by
  unfold processText
  rw [hr, bindE_ok]
  cases h1 : to_numeric_col (raw.map (fun r => r.temp)) with
  | error e =>
    rw [bindE_err]
    have := to_numeric_col_kind _ e h1
    subst this
    intro hcontr
    cases hcontr
  | ok temps =>
    rw [bindE_ok]
    cases h2 : to_numeric_col (raw.map (fun r => r.humidity)) with
    | error e =>
      rw [bindE_err]
      have := to_numeric_col_kind _ e h2
      subst this
      intro hcontr
      cases hcontr
    | ok hums =>
      rw [bindE_ok]
      cases h3 : to_datetime_col (raw.map (fun r => concatDateTime r.date r.time)) with
      | error e =>
        rw [bindE_err]
        have := to_datetime_col_kind _ e h3
        subst this
        intro hcontr
        cases hcontr
      | ok dts =>
        rw [bindE_ok]
        intro hcontr
        cases hcontr

/-- C4 counterexample: a line with only four fields does NOT raise a parse
error — pandas pads the missing trailing field with NaN and process_file
succeeds, contradicting the claim that any line not splitting into exactly
five fields raises a ParseError. -/
theorem C4_counterexample_short_line :
    (splitFields shortLineText).length = 4
    ∧ (processText shortLineText).isOk = true
    ∧ processText shortLineText ≠ .error .parseError := by
  refine ⟨by decide, by decide, ?_⟩
  have h : (processText shortLineText).isOk = true := by decide
  intro hcontr
  rw [hcontr] at h
  cases h

/-- C4 amended: the tokenizer raises its parse error exactly when some
line splits into MORE fields than the first line; a line with fewer fields
(such as a four-field line) is padded with missing values and parsing
proceeds. -/
theorem C4_amended_parse_error_iff (text : String) :
    processText text = .error .parseError ↔ hasOverWideLine text = true := by
  unfold hasOverWideLine
  cases hnb : nonBlankLines text with
  | nil =>
    constructor
    · intro h
      unfold processText read_csv at h
      rw [hnb] at h
      rw [bindE_err] at h
      cases h
    · intro h
      cases h
  | cons l0 rest =>
    by_cases hw : ((l0 :: rest).any
        (fun l => (splitFields l0).length < (splitFields l).length)) = true
    · constructor
      · intro _
        exact hw
      · intro _
        unfold processText read_csv
        rw [hnb]
        simp only [hw, if_true, bindE_err]
    · constructor
      · intro h
        exfalso
        have hok : read_csv text
            = .ok ((l0 :: rest).map
                (fun l => rowFrom (splitFields l) ((splitFields l0).length - 5))) := by
          unfold read_csv
          rw [hnb]
          simp only [hw, Bool.false_eq_true, if_false]
        exact processText_no_parse_error_after_tokenize text _ hok h
      · intro h
        exact absurd h hw

/-- C5: whenever the input tokenizes and some row's temperature or
humidity field fails numeric coercion, process_file raises the fatal
NumericCoercionError for the whole input — no partial dataset of the
remaining valid lines is ever produced. -/
theorem C5_numeric_coercion_fatal (text : String)
    (h : hasBadNumericField text = true) :
    processText text = .error .numericCoercionError := by
  unfold hasBadNumericField at h
  cases hr : read_csv text with
  | error e => rw [hr] at h; cases h
  | ok raw =>
    rw [hr] at h
    obtain ⟨r, hrmem, hrbad⟩ := List.any_eq_true.1 h
    unfold processText
    rw [hr, bindE_ok]
    cases h1 : to_numeric_col (raw.map (fun x => x.temp)) with
    | error e =>
      rw [bindE_err, to_numeric_col_kind _ e h1]
    | ok temps =>
      rw [bindE_ok]
      have htempok : ∀ a ∈ raw.map (fun x => x.temp), (to_numeric_cell a).isOk = true := by
        rw [← mapE_isOk_iff]
        rw [show to_numeric_col (raw.map (fun x => x.temp))
            = mapE to_numeric_cell (raw.map (fun x => x.temp)) from rfl] at h1
        rw [h1]
        rfl
      have hhumbad : failsCoercion r.humidity = true := by
        rcases Bool.or_eq_true_iff.1 hrbad with htv | hhv
        · exfalso
          have := htempok r.temp (List.mem_map_of_mem (fun x => x.temp) hrmem)
          rw [failsCoercion_not_ok r.temp htv] at this
          cases this
        · exact hhv
      cases h2 : to_numeric_col (raw.map (fun x => x.humidity)) with
      | error e =>
        rw [bindE_err, to_numeric_col_kind _ e h2]
      | ok hums =>
        exfalso
        have hok : ∀ a ∈ raw.map (fun x => x.humidity),
            (to_numeric_cell a).isOk = true := by
          rw [← mapE_isOk_iff]
          rw [show to_numeric_col (raw.map (fun x => x.humidity))
              = mapE to_numeric_cell (raw.map (fun x => x.humidity)) from rfl] at h2
          rw [h2]
          rfl
        have := hok r.humidity (List.mem_map_of_mem (fun x => x.humidity) hrmem)
        rw [failsCoercion_not_ok r.humidity hhumbad] at this
        cases this

/-- C5 witness: a concrete input with the non-numeric temperature field
NaNvalue is rejected whole with NumericCoercionError. -/
theorem C5_numeric_coercion_fatal_witness :
    processText badNumericText = .error .numericCoercionError :=
  C5_numeric_coercion_fatal badNumericText (by decide)

/-- C6 counterexample: a summary of an empty dataset fails with the
generic positional IndexError of iloc, not with the distinguished
EmptyDatasetError the claim posits. -/
theorem C6_counterexample_empty_summary :
    summarize [] [] = .error .indexError
    ∧ summarize [] [] ≠ .error .emptyDatasetError := by
  refine ⟨rfl, ?_⟩
  intro h
  have h2 : (Except.error Err.indexError : Except Err SummaryInfo)
      = Except.error Err.emptyDatasetError := h
  injection h2 with h3
  cases h3

/-- C6 amended: requesting a summary of a dataset with zero records does
fail rather than return a summary value, but with Python's IndexError
(positional lookup on the empty selection at app.py line 176), not with a
distinguished empty-dataset error. -/
theorem C6_amended_empty_summary_fails (dts : List (Option ℤ)) :
    summarize [] dts = .error .indexError := rfl

theorem summaryLoop_append_last (fetch : String → Except Err String) :
    ∀ (l : List TableRow) (acc : Option SummaryInfo) (r : TableRow)
      (res : Option SummaryInfo),
      summaryLoop fetch acc (l ++ [r]) = .ok res →
      ∃ s, seriesSummary fetch r = .ok s ∧ res = some s := by
  intro l
  induction l with
  | nil =>
    intro acc r res h
    simp only [List.nil_append, summaryLoop] at h
    cases hs : seriesSummary fetch r with
    | error e => rw [hs, bindE_err] at h; cases h
    | ok s =>
      rw [hs, bindE_ok] at h
      refine ⟨s, rfl, ?_⟩
      injection h with h1
      exact h1.symm
  | cons a t ih =>
    intro acc r res h
    simp only [List.cons_append, summaryLoop] at h
    cases ha : seriesSummary fetch a with
    | error e => rw [ha, bindE_err] at h; cases h
    | ok s =>
      rw [ha, bindE_ok] at h
      exact ih (some s) r res h

/-- C7: when the show-summary loop (app.py lines 164–187) runs over two or
more configured series and succeeds, the reported summary is exactly the
summary of the LAST series processed — each iteration overwrites the info
of the previous one, so summarizing only the last series yields the same
output. -/
theorem C7_multi_series_summary_last_wins (fetch : String → Except Err String)
    (init : List TableRow) (lastRow : TableRow) (res : Option SummaryInfo)
    (_hinit : init ≠ [])
    (h : summaryLoop fetch none (init ++ [lastRow]) = .ok res) :
    ∃ s, seriesSummary fetch lastRow = .ok s ∧ res = some s
      ∧ summaryLoop fetch none [lastRow] = .ok res := by
  obtain ⟨s, hs, hres⟩ := summaryLoop_append_last fetch init none lastRow res h
  refine ⟨s, hs, hres, ?_⟩
  have hone : summaryLoop fetch none [lastRow] = .ok (some s) := by
    simp only [summaryLoop, hs, bindE_ok]
  rw [hone, hres]

attribute [local semireducible] Rat.mul Rat.add Rat.sub Rat.inv in
/-- C7 witness: two concrete series with different data; the loop's output
equals the summary of the second (last) series alone.  (The rational
operations of Batteries are irreducible by default; they are made
semireducible here so that `decide` can evaluate the pipeline.) -/
theorem C7_multi_series_summary_last_wins_witness :
    ∃ s, seriesSummary fetchAB rowM2 = .ok s
      ∧ (some ⟨some (61 / 2 : ℚ), some 1704074400, some (61 / 2 : ℚ), some 1704074400⟩
          : Option SummaryInfo) = some s
      ∧ summaryLoop fetchAB none [rowM2]
          = .ok (some ⟨some (61 / 2 : ℚ), some 1704074400,
              some (61 / 2 : ℚ), some 1704074400⟩) :=
  C7_multi_series_summary_last_wins fetchAB [rowM1] rowM2
    (some ⟨some (61 / 2 : ℚ), some 1704074400, some (61 / 2 : ℚ), some 1704074400⟩)
    (by decide) (by decide)

/-- C8: the plot-graph aggregation (app.py lines 134–153) returns one
trace per configured row, in table order, when every retrieval succeeds;
and if any row's retrieval or processing fails, the first failure aborts
the whole aggregation with that error — no partial trace collection is
returned. -/
theorem C8_aggregator_order_and_failure (fetch : String → Except Err String)
    (rows : List TableRow) :
    ((∀ r ∈ rows, (processRow fetch r).isOk = true) →
      plotTraces fetch rows
        = .ok (rows.map (fun r => mkTrace r (okDf (processRow fetch r)))))
    ∧ (∀ pre row post e, rows = pre ++ row :: post →
        (∀ p ∈ pre, (processRow fetch p).isOk = true) →
        processRow fetch row = .error e →
        plotTraces fetch rows = .error e) := by
  constructor
  · induction rows with
    | nil => intro _; rfl
    | cons r t ih =>
      intro h
      have hr := h r (List.mem_cons_self r t)
      cases hpr : processRow fetch r with
      | error e => rw [hpr] at hr; cases hr
      | ok df =>
        have ht := ih (fun p hp => h p (List.mem_cons.2 (Or.inr hp)))
        simp only [plotTraces, hpr, bindE_ok, ht, List.map_cons, okDf]
  · intro pre row post e hrows hpre herr
    subst hrows
    revert hpre
    induction pre with
    | nil =>
      intro _
      simp only [List.nil_append, plotTraces, herr, bindE_err]
    | cons p t ih =>
      intro hpre
      have hp := hpre p (List.mem_cons_self p t)
      cases hpp : processRow fetch p with
      | error e2 => rw [hpp] at hp; cases hp
      | ok df =>
        have ht := ih (fun q hq => hpre q (List.mem_cons.2 (Or.inr hq)))
        simp only [List.cons_append, plotTraces, List.append_eq, hpp, bindE_ok,
          ht, bindE_err]

/-- C9 amended: an update-table invocation of the callback returns the
EMPTY figure (the initializer of app.py line 121, returned unchanged at
line 189) as the plot output — it clears the previously rendered plot
rather than leaving it untouched.  The previously rendered figure is not
even an input of the callback, so it cannot be preserved. -/
theorem C9_update_table_returns_empty_figure (fetch : String → Except Err String)
    (uc pc sc : ℕ) (m s l c : Option String) (ex : List TableRow)
    (t : Option String) :
    (update_table_and_plot fetch .updateTable uc pc sc m s l c ex t).map
      (fun r => r.figure) = .ok none := by
  unfold update_table_and_plot
  by_cases huc : 0 < uc
  · rw [if_pos (show Trigger.updateTable = Trigger.updateTable ∧ 0 < uc from
      ⟨rfl, huc⟩)]
    rfl
  · rw [if_neg (show ¬(Trigger.updateTable = Trigger.updateTable ∧ 0 < uc) from
        fun hc => huc hc.2),
      if_neg (show ¬(Trigger.updateTable = Trigger.plotGraph ∧ 0 < pc) from
        fun hc => Trigger.noConfusion hc.1),
      if_neg (show ¬(Trigger.updateTable = Trigger.showSummary ∧ 0 < sc) from
        fun hc => Trigger.noConfusion hc.1)]
    rfl

/-- C9 counterexample: a concrete update-table invocation outputs the
empty figure for the plot, while the previously rendered plot of the
scenario is a non-empty figure — so the plot output does NOT equal the
previously rendered plot, contradicting the claim. -/
theorem C9_counterexample_plot_cleared :
    (update_table_and_plot stubFetch .updateTable 1 0 0 (some "M1") (some "S1")
        (some "L1") (some "#112233") [] none).map (fun r => r.figure) = .ok none
    ∧ (some prevFigureC9 : Option Figure) ≠ (none : Option Figure) := by
  refine ⟨rfl, ?_⟩
  intro h
  cases h

/-- C10: with a positive click counter, an update-table invocation appends
the new row (meter_id, sensor_id, legend, color) to the table exactly when
meter_id, sensor_id and legend are all truthy (non-missing and non-empty),
and returns the table unchanged otherwise; the color value is never part
of the condition (it is quantified arbitrarily here, an empty color
included). -/
theorem C10_update_table_append_iff (fetch : String → Except Err String)
    (uc pc sc : ℕ) (m s l c : Option String) (ex : List TableRow)
    (t : Option String) (huc : 0 < uc) :
    (update_table_and_plot fetch .updateTable uc pc sc m s l c ex t).map
        (fun r => r.data)
      = .ok (if truthy m ∧ truthy s ∧ truthy l
          then ex ++ [⟨m.getD "", s.getD "", l.getD "", c⟩] else ex) := by
  unfold update_table_and_plot
  rw [if_pos (⟨rfl, huc⟩ : Trigger.updateTable = Trigger.updateTable ∧ 0 < uc)]
  rfl

/-- C10 witness: a concrete update-table action with all three key fields
present and an EMPTY color string appends the row. -/
theorem C10_update_table_append_iff_witness :
    (update_table_and_plot stubFetch .updateTable 1 0 0 (some "M7") (some "S7")
        (some "L7") (some "") [] none).map (fun r => r.data)
      = .ok (if truthy (some "M7") ∧ truthy (some "S7") ∧ truthy (some "L7")
          then ([] : List TableRow)
              ++ [⟨(some "M7").getD "", (some "S7").getD "", (some "L7").getD "",
                  some ""⟩]
          else []) :=
  C10_update_table_append_iff stubFetch 1 0 0 (some "M7") (some "S7") (some "L7")
    (some "") [] none (by decide)

end SensorApp
